import Mathlib

/-!
# Verification of the Gefion steam-zktls claim pipeline

This file is a shallow embedding, in Lean 4, of the claim pipeline implemented
by the Rust sources `src/steam-zktls/src/{present,verifier,export}.rs`:

* the DisclosureBuilder's fine-granularity reveal-range selection (`present.rs`);
* the ClaimVerifier's post-cryptography pipeline — timestamp conversion, server
  identity check, sentinel redaction, transcript hashing, and game-count outcome
  classification (`verifier.rs`), together with the CLI's observable result;
* the ChainProofAdapter — signature parsing, address derivation, recovery-id
  search, and emission of the Solidity-facing proof object (`export.rs`).

Bytes are modelled as `Nat` values (each `< 256` on real inputs), byte strings
as `List Nat`.  SHA-256 and Keccak-256 (the two digests the code calls through
the `sha2` and `tiny_keccak` crates) are implemented concretely and executably
below, with 32/64-bit words represented as `Nat` reduced modulo `2^32`/`2^64`.

External collaborators that are out of this repository (the `tlsn_core`
presentation verification, the `k256` elliptic-curve operations, and `chrono`'s
timestamp range check) are modelled as explicit parameters: the pipeline code
under verification only branches on their results, never on their internals.
-/

namespace Gefion

set_option maxRecDepth 100000

/-! ## Byte-string utilities

`strBytes` converts an ASCII string literal to its byte sequence.  `findSub`
mirrors Rust's `str::find` (index of the first occurrence of a pattern) and
`containsBytes` mirrors `str::contains`.  The Rust code searches inside
`String::from_utf8_lossy(bytes)`; for pure-ASCII patterns such as
`"game_count":1` an occurrence in the lossy decoding corresponds exactly to an
occurrence of the same bytes in the raw byte sequence, because lossy decoding
replaces only non-ASCII bytes, so the search is modelled at the byte level. -/

/-- Bytes of an ASCII string (each character is one byte). -/
def strBytes (s : String) : List Nat := s.data.map Char.toNat

/-- Does `pat` occur at the very start of `xs`? -/
def startMatch : List Nat → List Nat → Bool
  | [], _ => true
  | _ :: _, [] => false
  | p :: ps, x :: xs => p == x && startMatch ps xs

/-- Does `pat` occur in `hay` at offset `i`? -/
def matchesAt (hay pat : List Nat) (i : Nat) : Bool := startMatch pat (hay.drop i)

/-- Index of the first occurrence of `pat` in the haystack (Rust `str::find`). -/
def findSub (pat : List Nat) : List Nat → Option Nat
  | [] => if startMatch pat [] then some 0 else none
  | x :: xs =>
    if startMatch pat (x :: xs) then some 0
    else (findSub pat xs).map (· + 1)

/-- Substring containment (Rust `str::contains`). -/
def containsBytes (hay pat : List Nat) : Bool := (findSub pat hay).isSome

/-! ## SHA-256 (FIPS 180-4)

Concrete model of the `sha2::Sha256` digest invoked by `verifier.rs` (line 125)
and `export.rs` (lines 156 and 198).  32-bit words are `Nat` values reduced
modulo `2^32`; byte strings are `List Nat`. -/

/-- Reduce to a 32-bit word. -/
def w32 (x : Nat) : Nat := x % 4294967296

/-- Right rotation of a 32-bit word (`x < 2^32`). -/
def rotr32 (x n : Nat) : Nat := w32 (Nat.lor (x >>> n) (x <<< (32 - n)))

/-- SHA-256 `Ch(x,y,z)`; bitwise complement is `xor` with the all-ones word. -/
def shaCh (x y z : Nat) : Nat :=
  Nat.xor (Nat.land x y) (Nat.land (Nat.xor x 4294967295) z)

/-- SHA-256 `Maj(x,y,z)`. -/
def shaMaj (x y z : Nat) : Nat :=
  Nat.xor (Nat.xor (Nat.land x y) (Nat.land x z)) (Nat.land y z)

/-- SHA-256 `Σ₀`. -/
def bigSig0 (x : Nat) : Nat := Nat.xor (Nat.xor (rotr32 x 2) (rotr32 x 13)) (rotr32 x 22)

/-- SHA-256 `Σ₁`. -/
def bigSig1 (x : Nat) : Nat := Nat.xor (Nat.xor (rotr32 x 6) (rotr32 x 11)) (rotr32 x 25)

/-- SHA-256 `σ₀`. -/
def smallSig0 (x : Nat) : Nat := Nat.xor (Nat.xor (rotr32 x 7) (rotr32 x 18)) (x >>> 3)

/-- SHA-256 `σ₁`. -/
def smallSig1 (x : Nat) : Nat := Nat.xor (Nat.xor (rotr32 x 17) (rotr32 x 19)) (x >>> 10)

/-- The eight SHA-256 initial hash words (FIPS 180-4 §5.3.3, in decimal). -/
def sha256IV : List Nat :=
  [1779033703, 3144134277, 1013904242, 2773480762,
   1359893119, 2600822924, 528734635, 1541459225]

/-- The sixty-four SHA-256 round constant words (FIPS 180-4 §4.2.2, in
decimal; the two digest test vectors below pin them down). -/
def sha256K : List Nat :=
  [1116352408, 1899447441, 3049323471, 3921009573,
   961987163, 1508970993, 2453635748, 2870763221,
   3624381080, 310598401, 607225278, 1426881987,
   1925078388, 2162078206, 2614888103, 3248222580,
   3835390401, 4022224774, 264347078, 604807628,
   770255983, 1249150122, 1555081692, 1996064986,
   2554220882, 2821834349, 2952996808, 3210313671,
   3336571891, 3584528711, 113926993, 338241895,
   666307205, 773529912, 1294757372, 1396182291,
   1695183700, 1986661051, 2177026350, 2456956037,
   2730485921, 2820302411, 3259730800, 3345764771,
   3516065817, 3600352804, 4094571909, 275423344,
   430227734, 506948616, 659060556, 883997877,
   958139571, 1322822218, 1537002063, 1747873779,
   1955562222, 2024104815, 2227730452, 2361852424,
   2428436474, 2756734187, 3204031479, 3329325298]

/-- Big-endian bytes of a 32-bit word. -/
def be32 (x : Nat) : List Nat :=
  [(x >>> 24) % 256, (x >>> 16) % 256, (x >>> 8) % 256, x % 256]

/-- Big-endian bytes of a 64-bit word. -/
def be64 (x : Nat) : List Nat :=
  [(x >>> 56) % 256, (x >>> 48) % 256, (x >>> 40) % 256, (x >>> 32) % 256,
   (x >>> 24) % 256, (x >>> 16) % 256, (x >>> 8) % 256, x % 256]

/-- FIPS 180-4 §5.1.1 padding: `0x80`, zeroes, then the 64-bit bit length,
reaching a multiple of 64 bytes. -/
def sha256Pad (msg : List Nat) : List Nat :=
  msg ++ 128 :: List.replicate ((120 - (msg.length + 1) % 64) % 64) 0
      ++ be64 (8 * msg.length)

/-- Chunk splitting worker, structurally recursive on a fuel argument so that
the definition reduces inside the kernel.  At all call sites `n > 0` and the
fuel starts at the list length, which each step shrinks by at least one. -/
def chunksGo (n : Nat) : Nat → List Nat → List (List Nat)
  | _, [] => []
  | 0, _ :: _ => []
  | fuel + 1, x :: xs => (x :: xs).take n :: chunksGo n fuel ((x :: xs).drop n)

/-- Split a byte string into chunks of `n` bytes (`n > 0`; the last chunk of a
well-formed padded message is exactly `n` bytes). -/
def chunksOf (n : Nat) (xs : List Nat) : List (List Nat) := chunksGo n xs.length xs

/-- The 16 big-endian message words of one 64-byte block. -/
def blockWords (block : List Nat) : List Nat :=
  (List.range 16).map fun t =>
    Nat.lor (Nat.lor ((block.getD (4 * t) 0) <<< 24) ((block.getD (4 * t + 1) 0) <<< 16))
      (Nat.lor ((block.getD (4 * t + 2) 0) <<< 8) (block.getD (4 * t + 3) 0))

/-- Extend 16 message words to the 64-word schedule. -/
def sha256Schedule (ws : List Nat) : List Nat :=
  (List.range 48).foldl
    (fun acc i =>
      acc ++ [w32 (smallSig1 (acc.getD (i + 14) 0) + acc.getD (i + 9) 0
              + smallSig0 (acc.getD (i + 1) 0) + acc.getD i 0)])
    ws

/-- One round of the SHA-256 compression function on the 8-word working state;
`kw` is the already-combined `K[t] + W[t]`. -/
def sha256Round (st : List Nat) (kw : Nat) : List Nat :=
  match st with
  | [a, b, c, d, e, f, g, h] =>
    let t1 := w32 (h + bigSig1 e + shaCh e f g + kw)
    let t2 := w32 (bigSig0 a + shaMaj a b c)
    [w32 (t1 + t2), a, b, c, w32 (d + t1), e, f, g]
  | other => other

/-- Compress one 64-byte block into the 8-word state. -/
def sha256Compress (st block : List Nat) : List Nat :=
  let ws := sha256Schedule (blockWords block)
  let fin := (List.range 64).foldl
    (fun s t => sha256Round s (w32 (sha256K.getD t 0 + ws.getD t 0))) st
  (List.range 8).map fun i => w32 (st.getD i 0 + fin.getD i 0)

/-- SHA-256 digest (32 bytes) of a byte string. -/
def sha256Bytes (msg : List Nat) : List Nat :=
  ((chunksOf 64 (sha256Pad msg)).foldl sha256Compress sha256IV).foldr
    (fun word acc => be32 word ++ acc) []

set_option maxRecDepth 100000

/-! ## Keccak-256 (original Keccak padding, as used by the EVM)

Concrete model of `tiny_keccak::Keccak::v256`, invoked by `export.rs` for
Ethereum address derivation (line 68) and for the chain-native header hash
(line 187).  64-bit lanes are `Nat` values reduced modulo `2^64`; the state is
a list of 25 lanes ordered `x + 5*y`. -/

/-- Reduce to a 64-bit word. -/
def w64 (x : Nat) : Nat := x % 18446744073709551616

/-- Left rotation of a 64-bit lane (`x < 2^64`). -/
def rotl64 (x n : Nat) : Nat := w64 (Nat.lor (x <<< n) (x >>> (64 - n)))

/-- Bitwise complement of a 64-bit lane. -/
def not64 (x : Nat) : Nat := Nat.xor x 18446744073709551615

/-- Keccak ρ rotation offsets by column: the inner list at position `x` holds
the offsets of lanes `(x, 0) … (x, 4)`. -/
def keccakRhoCols : List (List Nat) :=
  [[0, 36, 3, 41, 18],
   [1, 44, 10, 45, 2],
   [62, 6, 43, 15, 61],
   [28, 55, 25, 21, 56],
   [27, 20, 39, 8, 14]]

/-- Keccak ρ rotation offsets, indexed by lane `x + 5*y`. -/
def keccakRho : List Nat :=
  (List.range 25).map fun i => (keccakRhoCols.getD (i % 5) []).getD (i / 5) 0

/-- Keccak-f[1600] round constants (in decimal; the digest test vector below
pins them down). -/
def keccakRC : List Nat :=
  [1, 32898, 9223372036854808714,
   9223372039002292224, 32907, 2147483649,
   9223372039002292353, 9223372036854808585, 138,
   136, 2147516425, 2147483658,
   2147516555, 9223372036854775947, 9223372036854808713,
   9223372036854808579, 9223372036854808578, 9223372036854775936,
   32778, 9223372039002259466, 9223372039002292353,
   9223372036854808704, 2147483649, 9223372039002292232]

/-- Keccak θ step. -/
def keccakTheta (s : List Nat) : List Nat :=
  let c := (List.range 5).map fun x =>
    Nat.xor (Nat.xor (Nat.xor (Nat.xor (s.getD x 0) (s.getD (x + 5) 0))
      (s.getD (x + 10) 0)) (s.getD (x + 15) 0)) (s.getD (x + 20) 0)
  let d := (List.range 5).map fun x =>
    Nat.xor (c.getD ((x + 4) % 5) 0) (rotl64 (c.getD ((x + 1) % 5) 0) 1)
  (List.range 25).map fun i => Nat.xor (s.getD i 0) (d.getD (i % 5) 0)

/-- Keccak ρ and π steps combined: the lane landing at position `X + 5*Y` is
the rotation of the lane at `((X + 3*Y) % 5) + 5*X` (the inverse of the π
index map `(x,y) ↦ (y, (2x+3y) % 5)`). -/
def keccakRhoPi (s : List Nat) : List Nat :=
  (List.range 25).map fun j =>
    let src := (j % 5 + 3 * (j / 5)) % 5 + 5 * (j % 5)
    rotl64 (s.getD src 0) (keccakRho.getD src 0)

/-- Keccak χ step. -/
def keccakChi (b : List Nat) : List Nat :=
  (List.range 25).map fun j =>
    let x := j % 5
    let y := j / 5
    Nat.xor (b.getD j 0)
      (Nat.land (not64 (b.getD ((x + 1) % 5 + 5 * y) 0)) (b.getD ((x + 2) % 5 + 5 * y) 0))

/-- One Keccak-f[1600] round (θ, ρ, π, χ, ι). -/
def keccakRound (s : List Nat) (rc : Nat) : List Nat :=
  match keccakChi (keccakRhoPi (keccakTheta s)) with
  | [] => []
  | a0 :: rest => Nat.xor a0 rc :: rest

/-- The full 24-round Keccak-f[1600] permutation. -/
def keccakF (s : List Nat) : List Nat := keccakRC.foldl keccakRound s

/-- Original Keccak padding at rate 136 bytes: domain byte `0x01`, zeroes, and
a final `0x80` (merged to `0x81` when a single pad byte remains). -/
def keccakPad (input : List Nat) : List Nat :=
  let padTotal := 136 - input.length % 136
  if padTotal = 1 then input ++ [0x81]
  else input ++ 1 :: List.replicate (padTotal - 2) 0 ++ [128]

/-- XOR one 136-byte block into the state little-endian, then permute. -/
def keccakAbsorbBlock (s block : List Nat) : List Nat :=
  keccakF ((List.range 25).map fun lane =>
    Nat.xor (s.getD lane 0)
      ((List.range 8).foldl
        (fun acc k => Nat.lor acc ((block.getD (8 * lane + k) 0) <<< (8 * k))) 0))

/-- Keccak-256 digest (32 bytes) of a byte string, squeezed little-endian from
the first four lanes. -/
def keccak256Bytes (input : List Nat) : List Nat :=
  let s := (chunksOf 136 (keccakPad input)).foldl keccakAbsorbBlock
    (List.replicate 25 0)
  (List.range 32).map fun i => ((s.getD (i / 8) 0) >>> (8 * (i % 8))) % 256

/-! ## Transcript redaction (`PartialTranscript::set_unauthed`)

`verifier.rs` line 119 and `export.rs` line 145 call the external
`tlsn_core` method `set_unauthed(b'X')`, which overwrites every byte position
outside an authenticated (revealed) range with the fixed sentinel byte
`b'X' = 0x58 = 88`, in both transcript directions; `received_unsafe()` then
returns the full received-direction buffer.  Ranges are half-open byte
intervals `[start, end)` as in the data model's `RevealRange`. -/

/-- Is index `i` inside one of the half-open ranges? -/
def inRanges (rs : List (Nat × Nat)) (i : Nat) : Bool :=
  rs.any fun r => decide (r.1 ≤ i) && decide (i < r.2)

/-- Redaction worker: position `i` onward of `xs`, keeping bytes inside an
authenticated range and overwriting all others with the sentinel `b`. -/
def redactFrom (b : Nat) (rs : List (Nat × Nat)) : Nat → List Nat → List Nat
  | _, [] => []
  | i, x :: xs => (if inRanges rs i then x else b) :: redactFrom b rs (i + 1) xs

/-- The redacted byte sequence: authenticated positions keep their data byte,
all other positions become the sentinel `b`. -/
def redactList (data : List Nat) (rs : List (Nat × Nat)) (b : Nat) : List Nat :=
  redactFrom b rs 0 data

/-- One direction's data plus its authenticated ranges; a `tlsn_core`
`PartialTranscript` carries both directions. -/
structure PartialTranscript where
  sentData : List Nat
  sentAuthed : List (Nat × Nat)
  recvData : List Nat
  recvAuthed : List (Nat × Nat)
deriving DecidableEq

/-- Model of `set_unauthed`: replace every unauthenticated byte of both
directions with the sentinel byte. -/
def setUnauthed (t : PartialTranscript) (b : Nat) : PartialTranscript :=
  { t with sentData := redactList t.sentData t.sentAuthed b,
           recvData := redactList t.recvData t.recvAuthed b }

/-! ## ClaimVerifier (`verifier.rs`)

The model starts where `verify` receives the result of the opaque
`presentation.verify(&provider)` call (so after file reading, deserialization
and cryptographic verification, whose failures all collapse into the single
fatal `CryptoInvalid` case).  `chrono`'s `DateTime::<Utc>::from_timestamp`
range check is external and is passed in as the predicate `chronoOk`. -/

/-- The single hostname accepted by the verifier (`verifier.rs` line 110). -/
def expectedHost : String := "api.steampowered.com"

/-- Byte marker signalling "fact true" (`"game_count":1`). -/
def markerTrue : List Nat := strBytes "\"game_count\":1"

/-- Byte marker signalling "fact false" (`"game_count":0`). -/
def markerFalse : List Nat := strBytes "\"game_count\":0"

/-- The fatal error cases of `verify`; the Rust code reports each as an
`anyhow` error string, given symbolic names here in source order. -/
inductive VerifyError
  /-- Reading, deserialization or `presentation.verify` failed. -/
  | CryptoInvalid
  /-- "Invalid timestamp": `chrono` rejected the connection time. -/
  | InvalidTimestamp
  /-- "No server name in proof". -/
  | NoServerName
  /-- "Invalid server: {name}". -/
  | WrongServer (name : String)
  /-- "No transcript in proof". -/
  | NoTranscript
  /-- "Invalid proof - no game_count revealed". -/
  | AmbiguousOutcome
deriving DecidableEq

/-- The fields of `PresentationOutput` that `verifier.rs` consumes. -/
structure PresentationOutputModel where
  serverName : Option String
  time : Nat
  transcript : Option PartialTranscript
deriving DecidableEq

/-- `VerificationResult` of `verifier.rs` (the hash is kept as raw bytes; the
Rust code hex-encodes it for display). -/
structure VerificationResult where
  ownsGame : Bool
  timestamp : Nat
  transcriptHash : List Nat
deriving DecidableEq

/-- Game-count outcome classification shared by `verifier.rs` lines 130-143
and `export.rs` lines 148-153: `none` models the fatal ambiguous case reached
when neither marker occurs, otherwise the outcome is exactly the presence of
the "fact true" marker. -/
def classifyGameCount (recv : List Nat) : Option Bool :=
  let owns := containsBytes recv markerTrue
  let doesnt := containsBytes recv markerFalse
  if !owns && !doesnt then none else some owns

/-- The `verify` function of `verifier.rs` from the cryptographic verification
result onward.  `appId` is the `--app-id` CLI argument; `chronoOk` is the
external timestamp range check; `pres` is the outcome of loading and
cryptographically verifying the presentation. -/
def verify (chronoOk : Nat → Bool) (appId : Nat)
    (pres : Except Unit PresentationOutputModel) :
    Except VerifyError VerificationResult :=
  match pres with
  | .error _ => .error .CryptoInvalid
  | .ok out =>
    let timestamp := out.time
    if !(chronoOk timestamp) then .error .InvalidTimestamp
    else
      match out.serverName with
      | none => .error .NoServerName
      | some sn =>
        if sn ≠ expectedHost then .error (.WrongServer sn)
        else
          match out.transcript with
          | none => .error .NoTranscript
          | some t =>
            let redacted := setUnauthed t 88
            let transcriptBytes := redacted.recvData
            let transcriptHash := sha256Bytes transcriptBytes
            match classifyGameCount transcriptBytes with
            | none => .error .AmbiguousOutcome
            | some owns =>
              .ok { ownsGame := owns, timestamp := timestamp,
                    transcriptHash := transcriptHash }

/-- What the verifier CLI observably does (non-JSON mode): the line printed to
stdout and the process exit code. -/
structure CliObservable where
  stdout : String
  exitCode : Nat
deriving DecidableEq

/-- The `main` of `verifier.rs` (lines 46-75, `--json false`): print `yes`/`no`
from the outcome on success, print `no` on any error, exit 0 exactly when the
outcome is true. -/
def verifierMain (res : Except VerifyError VerificationResult) : CliObservable :=
  match res with
  | .ok r =>
    { stdout := if r.ownsGame then "yes" else "no",
      exitCode := if r.ownsGame then 0 else 1 }
  | .error _ => { stdout := "no", exitCode := 1 }

/-! ## DisclosureBuilder (`present.rs`)

The received-side fine-granularity selection.  `present.rs` line 65 decodes
the received bytes with `String::from_utf8_lossy`, line 71 takes the byte
offset of the first occurrence of the fact pattern `"appid":<app_id>` in that
*decoded* string (`str::find`), and line 73 uses `start..(start + len)` as a
raw-transcript reveal range.  The decoded string's byte offsets coincide with
raw-transcript offsets only while the preceding bytes are valid UTF-8, so the
decoding is modelled faithfully: `utf8LossyBytes` produces the UTF-8 bytes of
`from_utf8_lossy`'s output, copying well-formed sequences verbatim and
substituting one U+FFFD (`EF BF BD`) for each maximal subpart of an
ill-formed sequence, exactly Rust's documented substitution policy.  Since
the fact pattern is pure ASCII and the decoded string is valid UTF-8, every
byte-level occurrence of the pattern in the decoded bytes starts at a
character boundary, so `findSub` over `utf8LossyBytes` is exactly
`str::find`'s byte offset. -/

/-- Is `b` a UTF-8 continuation byte (`0x80..=0xBF`)? -/
def isCont (b : Nat) : Bool := decide (128 ≤ b) && decide (b ≤ 191)

/-- The UTF-8 bytes of the replacement character U+FFFD. -/
def repChar : List Nat := [239, 191, 189]

/-- Worker for `utf8LossyBytes`, structurally recursive on a fuel argument
(the fuel starts at the list length and every step consumes at least one
byte, so the zero-fuel branch on a nonempty list is never reached).  The
branches follow Rust's UTF-8 validation: ASCII and well-formed 2-, 3- and
4-byte sequences (with the overlong, surrogate and out-of-range lead/first
continuation checks) are copied; on a malformed sequence the maximal valid
subpart (1, 2 or 3 bytes) is replaced by one U+FFFD and scanning resumes at
the offending byte; a truncated final sequence becomes one U+FFFD. -/
def utf8LossyGo : Nat → List Nat → List Nat
  | _, [] => []
  | 0, _ :: _ => []
  | f + 1, b :: rest =>
    if b < 128 then b :: utf8LossyGo f rest
    else if 194 ≤ b ∧ b ≤ 223 then
      match rest with
      | [] => repChar
      | c1 :: rest1 =>
        if isCont c1 then b :: c1 :: utf8LossyGo f rest1
        else repChar ++ utf8LossyGo f rest
    else if 224 ≤ b ∧ b ≤ 239 then
      match rest with
      | [] => repChar
      | c1 :: rest1 =>
        if (b = 224 ∧ 160 ≤ c1 ∧ c1 ≤ 191) ∨
            (225 ≤ b ∧ b ≤ 236 ∧ isCont c1) ∨
            (b = 237 ∧ 128 ≤ c1 ∧ c1 ≤ 159) ∨
            (238 ≤ b ∧ isCont c1) then
          match rest1 with
          | [] => repChar
          | c2 :: rest2 =>
            if isCont c2 then b :: c1 :: c2 :: utf8LossyGo f rest2
            else repChar ++ utf8LossyGo f rest1
        else repChar ++ utf8LossyGo f rest
    else if 240 ≤ b ∧ b ≤ 244 then
      match rest with
      | [] => repChar
      | c1 :: rest1 =>
        if (b = 240 ∧ 144 ≤ c1 ∧ c1 ≤ 191) ∨
            (241 ≤ b ∧ b ≤ 243 ∧ isCont c1) ∨
            (b = 244 ∧ 128 ≤ c1 ∧ c1 ≤ 143) then
          match rest1 with
          | [] => repChar
          | c2 :: rest2 =>
            if isCont c2 then
              match rest2 with
              | [] => repChar
              | c3 :: rest3 =>
                if isCont c3 then b :: c1 :: c2 :: c3 :: utf8LossyGo f rest3
                else repChar ++ utf8LossyGo f rest2
            else repChar ++ utf8LossyGo f rest1
        else repChar ++ utf8LossyGo f rest
    else repChar ++ utf8LossyGo f rest

/-- The UTF-8 bytes of `String::from_utf8_lossy(input)`. -/
def utf8LossyBytes (input : List Nat) : List Nat :=
  utf8LossyGo input.length input

/-- The fatal error cases of `present.rs`'s `main`, in source order. -/
inductive DisclosureError
  /-- "Requested app_id {} does not match attestation app_id {}". -/
  | AppIdMismatch
  /-- "Could not find app_id {} in response". -/
  | PatternNotFound
deriving DecidableEq

/-- The fact pattern `"appid":<app_id>` (`present.rs` line 69). -/
def appIdPattern (appId : Nat) : List Nat :=
  strBytes ("\"appid\":" ++ toString appId)

/-- The received-side reveal range computed by `present.rs` lines 65-73: the
byte offset of the first occurrence of the fact pattern in the lossy-decoded
received string, used with `start..(start + pattern_length)` as a
raw-transcript range, or `PatternNotFound` when the pattern is absent from
the decoded string. -/
def buildRecvReveal (recvData : List Nat) (appId : Nat) :
    Except DisclosureError (Nat × Nat) :=
  match findSub (appIdPattern appId) (utf8LossyBytes recvData) with
  | none => .error .PatternNotFound
  | some start => .ok (start, start + (appIdPattern appId).length)

/-- `present.rs` main from the loaded artifacts onward: the claim's recorded
app id must equal the requested one (lines 50-56), then the fine disclosure
range is selected. -/
def presentMain (claimAppId argsAppId : Nat) (recvData : List Nat) :
    Except DisclosureError (Nat × Nat) :=
  if claimAppId ≠ argsAppId then .error .AppIdMismatch
  else buildRecvReveal recvData argsAppId

/-! ## ChainProofAdapter (`export.rs`)

The export stage from the cryptographic verification result onward.  The
elliptic-curve operations of the external `k256` crate are passed in as a
`K256Provider`: the code under verification only compares and threads their
results.  `headerBytes` stands for `bcs::to_bytes(&attestation.header)`, the
BCS serialization produced by the external `bcs` crate. -/

/-- The fatal error cases of `export.rs`'s `main`, in source order. -/
inductive AdapterError
  /-- Reading, deserialization or `presentation.verify` failed. -/
  | CryptoInvalid
  /-- "No server name in proof". -/
  | NoServerName
  /-- "Invalid timestamp". -/
  | InvalidTimestamp
  /-- "No transcript in proof". -/
  | NoTranscript
  /-- "No valid game_count found in revealed data". -/
  | NoGameCount
  /-- "Expected 64-byte signature, got {} bytes". -/
  | MalformedSignature (len : Nat)
  /-- "Invalid signature: {}": `k256` rejected the 64-byte `r ‖ s` encoding. -/
  | InvalidSignature
  /-- "Invalid public key: {}": `k256` rejected the SEC1 key bytes. -/
  | InvalidPublicKey
  /-- "Could not find recovery id for signature". -/
  | RecoveryIdNotFound
deriving DecidableEq

/-- The operations of the external `k256` crate used by `export.rs`, over
abstract key (`K`) and signature (`S`) types: SEC1 public-key parsing,
64-byte `r ‖ s` signature parsing, public-key recovery from a prehash and a
recovery id, and uncompressed SEC1 re-encoding of a parsed key. -/
structure K256Provider (K S : Type) where
  parseKey : List Nat → Option K
  parseSig : List Nat → Option S
  recoverFromPrehash : List Nat → S → Nat → Option K
  uncompressedSec1 : K → List Nat

/-- `pubkey_to_address` of `export.rs` lines 56-76: parse the SEC1 key bytes,
re-encode uncompressed (65 bytes `0x04 ‖ x ‖ y`), and take the last 20 bytes
of the Keccak-256 of the coordinates (the leading format byte skipped). -/
def pubkey_to_address {K S : Type} (P : K256Provider K S) (pubkeyBytes : List Nat) :
    Except AdapterError (List Nat) :=
  match P.parseKey pubkeyBytes with
  | none => .error .InvalidPublicKey
  | some vk =>
    .ok ((keccak256Bytes ((P.uncompressedSec1 vk).drop 1)).drop 12)

/-- `find_recovery_id` of `export.rs` lines 79-104: try recovery ids 0 and 1
in order against the given prehash, returning the first id whose recovered key
equals the known notary key, or `RecoveryIdNotFound` when neither matches. -/
def find_recovery_id {K S : Type} [DecidableEq K] (P : K256Provider K S)
    (pubkeyBytes messageHash : List Nat) (signature : S) :
    Except AdapterError Nat :=
  match P.parseKey pubkeyBytes with
  | none => .error .InvalidPublicKey
  | some vk =>
    let tryNext : Except AdapterError Nat :=
      match P.recoverFromPrehash messageHash signature 1 with
      | some r1 => if r1 = vk then .ok 1 else .error .RecoveryIdNotFound
      | none => .error .RecoveryIdNotFound
    match P.recoverFromPrehash messageHash signature 0 with
    | some r0 => if r0 = vk then .ok 0 else tryNext
    | none => tryNext

/-- The attestation fields `export.rs` consumes: the notary signature bytes
and the BCS serialization of the signed header. -/
structure AttestationModel where
  sigData : List Nat
  headerBytes : List Nat
deriving DecidableEq

/-- The fields of `PresentationOutput` that `export.rs` consumes. -/
structure ExportPresentationOutput where
  serverName : Option String
  time : Nat
  transcript : Option PartialTranscript
  attestation : AttestationModel
deriving DecidableEq

/-- The `SolidityProof` JSON object of `export.rs` (byte fields kept raw; the
Rust code hex-encodes them with a `0x` prefix for the JSON file). -/
structure SolidityProof where
  notaryAddress : List Nat
  signatureR : List Nat
  signatureS : List Nat
  signatureV : Nat
  messageHash : List Nat
  serverName : String
  timestamp : Nat
  ownsGame : Bool
  transcriptHash : List Nat
deriving DecidableEq

/-- The `main` of `export.rs` (lines 107-239) from the cryptographic
verification result onward, in source order: extract the server name (no
hostname check), convert the timestamp, redact the transcript with the
sentinel, classify the game-count outcome, hash the redacted received bytes,
check the 64-byte signature length, parse the signature, compute the
chain-native Keccak-256 header hash (bound but never emitted), derive the
notary address, compute the SHA-256 header hash actually signed, search the
recovery id against it, and emit the proof with `v = recovery_id + 27`. -/
def exportMain {K S : Type} [DecidableEq K] (P : K256Provider K S)
    (chronoOk : Nat → Bool) (verifyingKeyData : List Nat)
    (pres : Except Unit ExportPresentationOutput) :
    Except AdapterError SolidityProof :=
  match pres with
  | .error _ => .error .CryptoInvalid
  | .ok out =>
    match out.serverName with
    | none => .error .NoServerName
    | some sn =>
      let timestamp := out.time
      if !(chronoOk timestamp) then .error .InvalidTimestamp
      else
        match out.transcript with
        | none => .error .NoTranscript
        | some t =>
          let redacted := setUnauthed t 88
          match classifyGameCount redacted.recvData with
          | none => .error .NoGameCount
          | some owns =>
            let transcriptHash := sha256Bytes redacted.recvData
            let sigData := out.attestation.sigData
            if sigData.length ≠ 64 then .error (.MalformedSignature sigData.length)
            else
              match P.parseSig sigData with
              | none => .error .InvalidSignature
              | some signature =>
                let headerBytes := out.attestation.headerBytes
                let _keccakMessageHash := keccak256Bytes headerBytes
                match pubkey_to_address P verifyingKeyData with
                | .error e => .error e
                | .ok notaryAddress =>
                  let sha256Hash := sha256Bytes headerBytes
                  match find_recovery_id P verifyingKeyData sha256Hash signature with
                  | .error e => .error e
                  | .ok recoveryId =>
                    .ok { notaryAddress := notaryAddress,
                          signatureR := sigData.take 32,
                          signatureS := sigData.drop 32,
                          signatureV := recoveryId + 27,
                          messageHash := sha256Hash,
                          serverName := sn,
                          timestamp := timestamp,
                          ownsGame := owns,
                          transcriptHash := transcriptHash }

/-! ## Concrete fixtures

Small closed instances used to evaluate the models at explicit inputs: a
fully-revealed received transcript carrying the "fact true" marker, variants
of the presentation output around it, and a trivial instantiation of the
`k256` collaborator under which every branch of the export pipeline is
reachable. -/

/-- Decidable equality on `Except`, so that runs of the modelled pipelines can
be evaluated and compared on closed inputs. -/
instance exceptDecEq {ε α : Type} [DecidableEq ε] [DecidableEq α] :
    DecidableEq (Except ε α) := fun x y =>
  match x, y with
  | .ok a, .ok b =>
    if h : a = b then isTrue (by rw [h])
    else isFalse (fun hc => h (Except.ok.inj hc))
  | .error e, .error f =>
    if h : e = f then isTrue (by rw [h])
    else isFalse (fun hc => h (Except.error.inj hc))
  | .ok _, .error _ => isFalse (fun hc => Except.noConfusion hc)
  | .error _, .ok _ => isFalse (fun hc => Except.noConfusion hc)

/-- The revealed received bytes `"game_count":1` (14 bytes). -/
def sampleRecv : List Nat := strBytes "\"game_count\":1"

/-- A transcript revealing all of `sampleRecv` and a one-byte sent direction. -/
def sampleT1 : PartialTranscript :=
  { sentData := strBytes "A", sentAuthed := [(0, 1)],
    recvData := sampleRecv, recvAuthed := [(0, 14)] }

/-- Like `sampleT1` with a different sent byte and identical received side. -/
def sampleT2 : PartialTranscript :=
  { sentData := strBytes "B", sentAuthed := [(0, 1)],
    recvData := sampleRecv, recvAuthed := [(0, 14)] }

/-- Presentation output around `sampleT1`, from the expected host. -/
def sampleOut1 : PresentationOutputModel :=
  { serverName := some expectedHost, time := 0, transcript := some sampleT1 }

/-- Presentation output around `sampleT2`, from the expected host. -/
def sampleOut2 : PresentationOutputModel :=
  { serverName := some expectedHost, time := 0, transcript := some sampleT2 }

/-- A presentation output revealing neither game-count marker. -/
def ambiguousOut : PresentationOutputModel :=
  { serverName := some expectedHost, time := 0,
    transcript := some { sentData := [], sentAuthed := [],
                         recvData := strBytes "XYZ", recvAuthed := [(0, 3)] } }

/-- A presentation output whose server name differs from the expected host
only in letter case. -/
def wrongCaseOut : PresentationOutputModel :=
  { serverName := some "API.steampowered.com", time := 0, transcript := none }

/-- The `VerificationResult` that `verify` produces on `sampleOut1` (and on
`sampleOut2`). -/
def sampleResult : VerificationResult :=
  { ownsGame := true, timestamp := 0, transcriptHash := sha256Bytes sampleRecv }

/-- A concrete instantiation of the `k256` collaborator: every byte string
parses, recovery succeeds exactly at id 0, and keys re-encode to 65 bytes. -/
def sampleProvider : K256Provider Nat Unit :=
  { parseKey := fun _ => some 0,
    parseSig := fun _ => some (),
    recoverFromPrehash := fun _ _ i => if i = 0 then some 0 else none,
    uncompressedSec1 := fun _ => List.replicate 65 7 }

/-- A `k256` instantiation under which only recovery id 1 yields the known
key (id 0 recovers a different key). -/
def sampleProvider1 : K256Provider Nat Unit :=
  { parseKey := fun _ => some 5,
    parseSig := fun _ => some (),
    recoverFromPrehash := fun _ _ i => if i = 1 then some 5 else some 6,
    uncompressedSec1 := fun _ => List.replicate 65 7 }

/-- An export-stage presentation output whose server name is not the Steam
host and whose transcript reveals the "fact true" marker. -/
def sampleExportOut : ExportPresentationOutput :=
  { serverName := some "evil.example.com", time := 0,
    transcript := some sampleT1,
    attestation := { sigData := List.replicate 64 1, headerBytes := [] } }

/-- The proof object `exportMain` produces on `sampleExportOut` under
`sampleProvider` with verifying-key bytes `[2]`. -/
def sampleExportProof : SolidityProof :=
  { notaryAddress := (keccak256Bytes (List.replicate 64 7)).drop 12,
    signatureR := List.replicate 32 1,
    signatureS := List.replicate 32 1,
    signatureV := 27,
    messageHash := sha256Bytes [],
    serverName := "evil.example.com",
    timestamp := 0,
    ownsGame := true,
    transcriptHash := sha256Bytes sampleRecv }

/-- A throwaway export presentation output (placeholder argument). -/
def dummyExportOut : ExportPresentationOutput :=
  { serverName := none, time := 0, transcript := none,
    attestation := { sigData := [], headerBytes := [] } }

/-- A throwaway proof object (placeholder argument). -/
def dummyProof : SolidityProof :=
  { notaryAddress := [], signatureR := [], signatureS := [], signatureV := 0,
    messageHash := [], serverName := "", timestamp := 0, ownsGame := false,
    transcriptHash := [] }

/-! ## Supporting lemmas and digest test vectors -/

theorem findSub_some (pat : List Nat) :
    ∀ (hay : List Nat) (s : Nat), findSub pat hay = some s →
      matchesAt hay pat s = true ∧ ∀ j, j < s → matchesAt hay pat j = false := by
  intro hay
  induction hay with
  | nil =>
    intro s hs
    simp only [findSub] at hs
    by_cases h : startMatch pat [] = true
    · simp [h] at hs
      subst hs
      exact ⟨by simpa [matchesAt] using h, fun j hj => absurd hj (Nat.not_lt_zero j)⟩
    · simp [Bool.not_eq_true] at h
      simp [h] at hs
  | cons x xs ih =>
    intro s hs
    simp only [findSub] at hs
    by_cases h : startMatch pat (x :: xs) = true
    · simp [h] at hs
      subst hs
      exact ⟨by simpa [matchesAt] using h, fun j hj => absurd hj (Nat.not_lt_zero j)⟩
    · simp [Bool.not_eq_true] at h
      simp [h, Option.map_eq_some'] at hs
      obtain ⟨s', hs', rfl⟩ := hs
      obtain ⟨hm, hmin⟩ := ih s' hs'
      refine ⟨by simpa [matchesAt] using hm, ?_⟩
      intro j hj
      cases j with
      | zero => simpa [matchesAt] using h
      | succ j' =>
        have := hmin j' (Nat.lt_of_succ_lt_succ hj)
        simpa [matchesAt] using this

theorem findSub_none (pat : List Nat) :
    ∀ (hay : List Nat), findSub pat hay = none →
      ∀ j, matchesAt hay pat j = false := by
  intro hay
  induction hay with
  | nil =>
    intro hn j
    simp only [findSub] at hn
    by_cases h : startMatch pat [] = true
    · simp [h] at hn
    · simp [Bool.not_eq_true] at h
      simpa [matchesAt, List.drop_nil] using h
  | cons x xs ih =>
    intro hn j
    simp only [findSub] at hn
    by_cases h : startMatch pat (x :: xs) = true
    · simp [h] at hn
    · simp [Bool.not_eq_true] at h
      simp [h, Option.map_eq_none'] at hn
      cases j with
      | zero => simpa [matchesAt] using h
      | succ j' => simpa [matchesAt] using ih hn j'

/-- FIPS 180-4 test vector: the SHA-256 digest of the empty message. -/
example : sha256Bytes [] =
    [0xe3, 0xb0, 0xc4, 0x42, 0x98, 0xfc, 0x1c, 0x14, 0x9a, 0xfb, 0xf4, 0xc8,
     0x99, 0x6f, 0xb9, 0x24, 0x27, 0xae, 0x41, 0xe4, 0x64, 0x9b, 0x93, 0x4c,
     0xa4, 0x95, 0x99, 0x1b, 0x78, 0x52, 0xb8, 0x55] := by decide

/-- FIPS 180-4 test vector: the SHA-256 digest of `"abc"`. -/
example : sha256Bytes (strBytes "abc") =
    [0xba, 0x78, 0x16, 0xbf, 0x8f, 0x01, 0xcf, 0xea, 0x41, 0x41, 0x40, 0xde,
     0x5d, 0xae, 0x22, 0x23, 0xb0, 0x03, 0x61, 0xa3, 0x96, 0x17, 0x7a, 0x9c,
     0xb4, 0x10, 0xff, 0x61, 0xf2, 0x00, 0x15, 0xad] := by decide

theorem sha256Compress_length (st block : List Nat) :
    (sha256Compress st block).length = 8 := by
  simp [sha256Compress]

theorem sha256Bytes_length (msg : List Nat) : (sha256Bytes msg).length = 32 := by
  have hst : ∀ (blocks : List (List Nat)) (st : List Nat), st.length = 8 →
      (blocks.foldl sha256Compress st).length = 8 := by
    intro blocks
    induction blocks with
    | nil => intro st h; simpa using h
    | cons b bs ih => intro st _; exact ih _ (sha256Compress_length st b)
  have hfold : ∀ st : List Nat,
      (st.foldr (fun word acc => be32 word ++ acc) ([] : List Nat)).length
        = 4 * st.length := by
    intro st
    induction st with
    | nil => simp
    | cons w ws ih =>
      rw [List.foldr_cons, List.length_append, ih]
      simp only [be32, List.length_cons, List.length_nil]
      omega
  have h8 : ((chunksOf 64 (sha256Pad msg)).foldl sha256Compress sha256IV).length = 8 :=
    hst _ _ (by simp [sha256IV])
  simp only [sha256Bytes]
  rw [hfold, h8]

/-- EVM test vector: the Keccak-256 digest of the empty message. -/
example : keccak256Bytes [] =
    [0xc5, 0xd2, 0x46, 0x01, 0x86, 0xf7, 0x23, 0x3c, 0x92, 0x7e, 0x7d, 0xb2,
     0xdc, 0xc7, 0x03, 0xc0, 0xe5, 0x00, 0xb6, 0x53, 0xca, 0x82, 0x27, 0x3b,
     0x7b, 0xfa, 0xd8, 0x04, 0x5d, 0x85, 0xa4, 0x70] := by decide

theorem redactFrom_length (b : Nat) (rs : List (Nat × Nat)) :
    ∀ (i : Nat) (xs : List Nat), (redactFrom b rs i xs).length = xs.length := by
  intro i xs
  induction xs generalizing i with
  | nil => rfl
  | cons x xs ih => simp [redactFrom, ih]

theorem redactFrom_getD (b : Nat) (rs : List (Nat × Nat)) :
    ∀ (xs : List Nat) (i j : Nat), j < xs.length →
      (redactFrom b rs i xs).getD j 0
        = if inRanges rs (i + j) then xs.getD j 0 else b := by
  intro xs
  induction xs with
  | nil => intro i j hj; simp at hj
  | cons x xs ih =>
    intro i j hj
    cases j with
    | zero => simp [redactFrom]
    | succ j' =>
      have hj' : j' < xs.length := by simpa using Nat.lt_of_succ_lt_succ hj
      have := ih (i + 1) j' hj'
      simp only [redactFrom, List.getD_cons_succ]
      rw [this, Nat.add_assoc, Nat.add_comm 1 j']

/-- Normal form of the game-count classification: the outcome is `true` as
soon as the "fact true" marker occurs, `false` when only the "fact false"
marker occurs, and the fatal `none` when neither occurs. -/
theorem classifyGameCount_eq (recv : List Nat) :
    classifyGameCount recv =
      (if containsBytes recv markerTrue then some true
       else if containsBytes recv markerFalse then some false
       else none) := by
  unfold classifyGameCount
  cases h1 : containsBytes recv markerTrue <;>
    cases h2 : containsBytes recv markerFalse <;> simp [h1, h2]

/-- A successful classification returns exactly the presence bit of the
"fact true" marker. -/
theorem classifyGameCount_some (recv : List Nat) (b : Bool)
    (h : classifyGameCount recv = some b) :
    b = containsBytes recv markerTrue := by
  rw [classifyGameCount_eq] at h
  cases h1 : containsBytes recv markerTrue <;>
    cases h2 : containsBytes recv markerFalse <;>
    rw [h1, h2] at h <;> simp at h <;> simp [h, h1]

/-- When the post-crypto pipeline reaches classification and neither marker
occurs in the redacted received bytes, `verify` fails with the ambiguous
outcome error. -/
theorem verify_ambiguous (chronoOk : Nat → Bool) (appId : Nat)
    (out : PresentationOutputModel) (t : PartialTranscript)
    (hca : chronoOk out.time = true) (hs : out.serverName = some expectedHost)
    (ht : out.transcript = some t)
    (hcl : classifyGameCount (redactList t.recvData t.recvAuthed 88) = none) :
    verify chronoOk appId (.ok out) = .error .AmbiguousOutcome := by
  simp [verify, hca, hs, ht, setUnauthed, hcl]

/-- When the server name is present but differs from the expected host,
`verify` fails with the wrong-server error. -/
theorem verify_wrongServer (chronoOk : Nat → Bool) (appId : Nat)
    (out : PresentationOutputModel) (sn : String)
    (hca : chronoOk out.time = true) (hs : out.serverName = some sn)
    (hsn : sn ≠ expectedHost) :
    verify chronoOk appId (.ok out) = .error (.WrongServer sn) := by
  simp [verify, hca, hs, hsn]

/-- Everything a successful run of `verify` guarantees: the timestamp was
accepted, the server name is exactly the expected host, a transcript is
present, and the result's fields are computed from the sentinel-redacted
received bytes. -/
theorem verify_ok_characterization (chronoOk : Nat → Bool) (appId : Nat)
    (out : PresentationOutputModel) (r : VerificationResult)
    (h : verify chronoOk appId (.ok out) = .ok r) :
    chronoOk out.time = true ∧
    out.serverName = some expectedHost ∧
    ∃ t, out.transcript = some t ∧
      classifyGameCount (redactList t.recvData t.recvAuthed 88) = some r.ownsGame ∧
      r.timestamp = out.time ∧
      r.transcriptHash = sha256Bytes (redactList t.recvData t.recvAuthed 88) := by
  cases hca : chronoOk out.time with
  | false => simp [verify, hca] at h
  | true =>
    cases hs : out.serverName with
    | none => simp [verify, hca, hs] at h
    | some sn =>
      by_cases hsn : sn = expectedHost
      · subst hsn
        cases ht : out.transcript with
        | none => simp [verify, hca, hs, ht] at h
        | some t =>
          cases hcl : classifyGameCount (redactList t.recvData t.recvAuthed 88) with
          | none => simp [verify, hca, hs, ht, setUnauthed, hcl] at h
          | some owns =>
            have hv : verify chronoOk appId (.ok out)
                = .ok { ownsGame := owns, timestamp := out.time,
                        transcriptHash :=
                          sha256Bytes (redactList t.recvData t.recvAuthed 88) } := by
              simp [verify, hca, hs, ht, setUnauthed, hcl]
            rw [hv] at h
            injection h with h'
            subst h'
            exact ⟨rfl, rfl, t, rfl, hcl, rfl, rfl⟩
      · simp [verify, hca, hs, hsn] at h

/-- Normal form of the recovery-id search once the notary key bytes parse:
id 0 is tried first, id 1 second, and exhaustion is the fatal error. -/
theorem find_recovery_id_spec {K S : Type} [DecidableEq K] (P : K256Provider K S)
    (pk messageHash : List Nat) (sig : S) (vk : K)
    (hp : P.parseKey pk = some vk) :
    find_recovery_id P pk messageHash sig =
      (if P.recoverFromPrehash messageHash sig 0 = some vk then .ok 0
       else if P.recoverFromPrehash messageHash sig 1 = some vk then .ok 1
       else .error .RecoveryIdNotFound) := by
  unfold find_recovery_id
  rw [hp]
  cases h0 : P.recoverFromPrehash messageHash sig 0 with
  | none =>
    cases h1 : P.recoverFromPrehash messageHash sig 1 with
    | none => simp [h1]
    | some r1 => by_cases he1 : r1 = vk <;> simp [h1, he1]
  | some r0 =>
    by_cases he0 : r0 = vk
    · simp [he0]
    · cases h1 : P.recoverFromPrehash messageHash sig 1 with
      | none => simp [h1, he0]
      | some r1 => by_cases he1 : r1 = vk <;> simp [h1, he0, he1]

/-- Everything a successful run of `exportMain` guarantees, in particular the
exact proof object emitted. -/
theorem exportMain_ok_characterization {K S : Type} [DecidableEq K]
    (P : K256Provider K S) (chronoOk : Nat → Bool) (vkData : List Nat)
    (out : ExportPresentationOutput) (proof : SolidityProof)
    (h : exportMain P chronoOk vkData (.ok out) = .ok proof) :
    ∃ (sn : String) (t : PartialTranscript) (owns : Bool) (sig : S)
      (addr : List Nat) (rid : Nat),
      out.serverName = some sn ∧
      chronoOk out.time = true ∧
      out.transcript = some t ∧
      classifyGameCount (redactList t.recvData t.recvAuthed 88) = some owns ∧
      out.attestation.sigData.length = 64 ∧
      P.parseSig out.attestation.sigData = some sig ∧
      pubkey_to_address P vkData = .ok addr ∧
      find_recovery_id P vkData (sha256Bytes out.attestation.headerBytes) sig
        = .ok rid ∧
      proof = { notaryAddress := addr,
                signatureR := out.attestation.sigData.take 32,
                signatureS := out.attestation.sigData.drop 32,
                signatureV := rid + 27,
                messageHash := sha256Bytes out.attestation.headerBytes,
                serverName := sn,
                timestamp := out.time,
                ownsGame := owns,
                transcriptHash :=
                  sha256Bytes (redactList t.recvData t.recvAuthed 88) } := by
  cases hs : out.serverName with
  | none => simp [exportMain, hs] at h
  | some sn =>
    cases hca : chronoOk out.time with
    | false => simp [exportMain, hs, hca] at h
    | true =>
      cases ht : out.transcript with
      | none => simp [exportMain, hs, hca, ht] at h
      | some t =>
        cases hcl : classifyGameCount (redactList t.recvData t.recvAuthed 88) with
        | none => simp [exportMain, hs, hca, ht, setUnauthed, hcl] at h
        | some owns =>
          by_cases hlen : out.attestation.sigData.length = 64
          · cases hps : P.parseSig out.attestation.sigData with
            | none => simp [exportMain, hs, hca, ht, setUnauthed, hcl, hlen, hps] at h
            | some sig =>
              cases hpa : pubkey_to_address P vkData with
              | error e =>
                simp [exportMain, hs, hca, ht, setUnauthed, hcl, hlen, hps, hpa] at h
              | ok addr =>
                cases hfr : find_recovery_id P vkData
                    (sha256Bytes out.attestation.headerBytes) sig with
                | error e =>
                  simp [exportMain, hs, hca, ht, setUnauthed, hcl, hlen, hps,
                    hpa, hfr] at h
                | ok rid =>
                  have hv : exportMain P chronoOk vkData (.ok out)
                      = .ok { notaryAddress := addr,
                              signatureR := out.attestation.sigData.take 32,
                              signatureS := out.attestation.sigData.drop 32,
                              signatureV := rid + 27,
                              messageHash := sha256Bytes out.attestation.headerBytes,
                              serverName := sn,
                              timestamp := out.time,
                              ownsGame := owns,
                              transcriptHash :=
                                sha256Bytes (redactList t.recvData t.recvAuthed 88) } := by
                    simp [exportMain, hs, hca, ht, setUnauthed, hcl, hlen, hps, hpa, hfr]
                  rw [hv] at h
                  injection h with h'
                  exact ⟨sn, t, owns, sig, addr, rid, rfl, rfl, rfl, hcl, hlen,
                    rfl, rfl, hfr, h'.symm⟩
          · simp [exportMain, hs, hca, ht, setUnauthed, hcl, hlen] at h

/-- Converse construction: under the listed branch outcomes, `exportMain`
succeeds and emits exactly the assembled proof object. -/
theorem exportMain_ok_build {K S : Type} [DecidableEq K]
    (P : K256Provider K S) (chronoOk : Nat → Bool) (vkData : List Nat)
    (out : ExportPresentationOutput) (sn : String) (t : PartialTranscript)
    (owns : Bool) (sig : S) (addr : List Nat) (rid : Nat)
    (hs : out.serverName = some sn) (hca : chronoOk out.time = true)
    (ht : out.transcript = some t)
    (hcl : classifyGameCount (redactList t.recvData t.recvAuthed 88) = some owns)
    (hlen : out.attestation.sigData.length = 64)
    (hps : P.parseSig out.attestation.sigData = some sig)
    (hpa : pubkey_to_address P vkData = .ok addr)
    (hfr : find_recovery_id P vkData (sha256Bytes out.attestation.headerBytes) sig
        = .ok rid) :
    exportMain P chronoOk vkData (.ok out)
      = .ok { notaryAddress := addr,
              signatureR := out.attestation.sigData.take 32,
              signatureS := out.attestation.sigData.drop 32,
              signatureV := rid + 27,
              messageHash := sha256Bytes out.attestation.headerBytes,
              serverName := sn,
              timestamp := out.time,
              ownsGame := owns,
              transcriptHash :=
                sha256Bytes (redactList t.recvData t.recvAuthed 88) } := by
  simp [exportMain, hs, hca, ht, setUnauthed, hcl, hlen, hps, hpa, hfr]

/-! ## Claim theorems -/

/-- C1: for every presentation that passes cryptographic verification, the
outcome classification of the revealed received bytes yields exactly one of
three results: with neither the "fact true" marker `"game_count":1` nor the
"fact false" marker `"game_count":0` present, verification fails with the
ambiguous-outcome error and never returns a default boolean; with only the
false marker present the outcome is false; with the true marker present the
outcome is true. -/
theorem C1_outcome_classification (recv : List Nat) :
    (containsBytes recv markerTrue = false →
      containsBytes recv markerFalse = false →
      classifyGameCount recv = none) ∧
    (containsBytes recv markerTrue = false →
      containsBytes recv markerFalse = true →
      classifyGameCount recv = some false) ∧
    (containsBytes recv markerTrue = true →
      classifyGameCount recv = some true) ∧
    (∀ (chronoOk : Nat → Bool) (appId : Nat) (out : PresentationOutputModel)
        (t : PartialTranscript),
      chronoOk out.time = true → out.serverName = some expectedHost →
      out.transcript = some t →
      redactList t.recvData t.recvAuthed 88 = recv →
      classifyGameCount recv = none →
      verify chronoOk appId (.ok out) = .error .AmbiguousOutcome) := by
  refine ⟨?_, ?_, ?_, ?_⟩
  · intro h1 h2; rw [classifyGameCount_eq, h1, h2]; simp
  · intro h1 h2; rw [classifyGameCount_eq, h1, h2]; simp
  · intro h1; rw [classifyGameCount_eq, h1]; simp
  · intro chronoOk appId out t hca hs ht hr hnone
    exact verify_ambiguous chronoOk appId out t hca hs ht (by rw [hr]; exact hnone)

/-- Witness for C1: a concrete verified presentation revealing neither marker
is rejected with the ambiguous-outcome error. -/
theorem C1_outcome_classification_witness :
    verify (fun _ => true) 440 (.ok ambiguousOut) = .error .AmbiguousOutcome :=
  (C1_outcome_classification (strBytes "XYZ")).2.2.2 (fun _ => true) 440
    ambiguousOut
    { sentData := [], sentAuthed := [], recvData := strBytes "XYZ",
      recvAuthed := [(0, 3)] }
    rfl rfl rfl (by decide) (by decide)

/-- C7: the server identity string must equal `api.steampowered.com` exactly
(case-sensitively, with no wildcard or subdomain matching): any mismatch fails
with the wrong-server error before any outcome is produced, and success forces
the identity to be exactly the expected host. -/
theorem C7_server_identity_exact (chronoOk : Nat → Bool) (appId : Nat)
    (out : PresentationOutputModel) (sn : String) (r : VerificationResult) :
    (chronoOk out.time = true → out.serverName = some sn →
      sn ≠ "api.steampowered.com" →
      verify chronoOk appId (.ok out) = .error (.WrongServer sn)) ∧
    (verify chronoOk appId (.ok out) = .ok r →
      out.serverName = some "api.steampowered.com") := by
  constructor
  · intro hca hs hsn
    exact verify_wrongServer chronoOk appId out sn hca hs
      (by simpa [expectedHost] using hsn)
  · intro h
    simpa [expectedHost] using (verify_ok_characterization chronoOk appId out r h).2.1

/-- Witness for C7: a server name differing from the expected host only in
letter case is rejected with the wrong-server error. -/
theorem C7_server_identity_exact_witness :
    verify (fun _ => true) 440 (.ok wrongCaseOut)
      = .error (.WrongServer "API.steampowered.com") :=
  (C7_server_identity_exact (fun _ => true) 440 wrongCaseOut
    "API.steampowered.com" sampleResult).1 rfl rfl (by decide)

/-- C10: the verifier CLI's observable result conflates failure with a false
outcome: it prints `no` and exits 1 both on any verification error and on a
successful verification with outcome false, and it exits 0 (printing `yes`)
exactly when verification succeeds with outcome true. -/
theorem C10_cli_conflation (e : VerifyError) (res : VerificationResult)
    (r : Except VerifyError VerificationResult) :
    verifierMain (.error e) = { stdout := "no", exitCode := 1 } ∧
    verifierMain (.ok { res with ownsGame := false })
      = { stdout := "no", exitCode := 1 } ∧
    verifierMain (.ok { res with ownsGame := true })
      = { stdout := "yes", exitCode := 0 } ∧
    ((verifierMain r).exitCode = 0 ↔ ∃ x, r = .ok x ∧ x.ownsGame = true) := by
  refine ⟨rfl, rfl, rfl, ?_⟩
  cases r with
  | error e' => simp [verifierMain]
  | ok x => cases hx : x.ownsGame <;> simp [verifierMain, hx]

/-- C2: the claim says a presentation whose revealed bytes lack the supplied
app id's own marker is never accepted; the code performs no such check.  At
the failing input — revealed bytes `"game_count":1` with `--app-id 440`, which
contain no `"appid":440` marker — verification succeeds with outcome true,
and in general the verification result does not depend on the supplied app id
at all (the argument is only printed in verbose mode). -/
theorem C2_app_id_never_checked :
    verify (fun _ => true) 440 (.ok sampleOut1) = .ok sampleResult ∧
    containsBytes sampleRecv (appIdPattern 440) = false ∧
    (∀ (chronoOk : Nat → Bool) (a a' : Nat)
        (pres : Except Unit PresentationOutputModel),
      verify chronoOk a pres = verify chronoOk a' pres) := by
  exact ⟨by decide, by decide, fun chronoOk a a' pres => rfl⟩

/-- C5 counterexample: the content hash is not a digest of the full redacted
transcript in both directions.  Two verified presentations with identical
received bytes but different (revealed) sent bytes produce the same result,
hence the same hash, and the emitted hash differs from a digest over the
redacted sent bytes followed by the redacted received bytes. -/
theorem C5_hash_ignores_sent_direction :
    verify (fun _ => true) 440 (.ok sampleOut1) = .ok sampleResult ∧
    verify (fun _ => true) 440 (.ok sampleOut2) = .ok sampleResult ∧
    sampleT1.sentData ≠ sampleT2.sentData ∧
    sampleResult.transcriptHash
      ≠ sha256Bytes (redactList sampleT1.sentData sampleT1.sentAuthed 88
          ++ redactList sampleT1.recvData sampleT1.recvAuthed 88) := by
  exact ⟨by decide, by decide, by decide, by decide⟩

/-- C5 as amended: the transcript content hash of a successful verification is
the SHA-256 digest of the redacted received bytes only (the sent direction is
not part of the hashed input); it is a fixed-size 32-byte digest and is
deterministic — equal redacted bytes always give an equal hash. -/
theorem C5_content_hash_received_only (chronoOk : Nat → Bool) (appId : Nat)
    (out : PresentationOutputModel) (t : PartialTranscript)
    (r : VerificationResult)
    (ht : out.transcript = some t)
    (h : verify chronoOk appId (.ok out) = .ok r) :
    r.transcriptHash = sha256Bytes (redactList t.recvData t.recvAuthed 88) ∧
    r.transcriptHash.length = 32 ∧
    (∀ d d' : List Nat, d = d' → sha256Bytes d = sha256Bytes d') := by
  obtain ⟨-, -, t', ht', -, -, hh⟩ := verify_ok_characterization chronoOk appId out r h
  have htt : t' = t := by rw [ht] at ht'; exact (Option.some.inj ht').symm
  subst htt
  exact ⟨hh, by rw [hh]; exact sha256Bytes_length _, fun d d' hd => by rw [hd]⟩

/-- Witness for C5 (amended): on a concrete verified presentation the result
hash is the SHA-256 of the redacted received bytes. -/
theorem C5_content_hash_received_only_witness :
    sampleResult.transcriptHash
      = sha256Bytes (redactList sampleT1.recvData sampleT1.recvAuthed 88) ∧
    sampleResult.transcriptHash.length = 32 :=
  ⟨(C5_content_hash_received_only (fun _ => true) 440 sampleOut1 sampleT1
      sampleResult rfl (by decide)).1,
   (C5_content_hash_received_only (fun _ => true) 440 sampleOut1 sampleT1
      sampleResult rfl (by decide)).2.1⟩

/-- C6: after cryptographic verification every unauthenticated byte position
of the transcript is replaced with the fixed sentinel byte `0x58 = 'X'` before
any marker search: the redacted sequence has the original length, agrees with
the original exactly on positions inside a reveal range, is the sentinel
everywhere else, and the outcome classifier's result is computed from exactly
this redacted sequence. -/
theorem C6_sentinel_redaction (data : List Nat) (rs : List (Nat × Nat))
    (chronoOk : Nat → Bool) (appId : Nat) (out : PresentationOutputModel)
    (t : PartialTranscript) (r : VerificationResult) :
    (redactList data rs 88).length = data.length ∧
    (∀ i, i < data.length →
      (redactList data rs 88).getD i 0
        = if inRanges rs i then data.getD i 0 else 88) ∧
    (out.transcript = some t → verify chronoOk appId (.ok out) = .ok r →
      r.ownsGame
        = containsBytes (redactList t.recvData t.recvAuthed 88) markerTrue) := by
  refine ⟨redactFrom_length 88 rs 0 data, ?_, ?_⟩
  · intro i hi
    simpa using redactFrom_getD 88 rs data 0 i hi
  · intro ht h
    obtain ⟨-, -, t', ht', hcl, -, -⟩ :=
      verify_ok_characterization chronoOk appId out r h
    have htt : t' = t := by rw [ht] at ht'; exact (Option.some.inj ht').symm
    subst htt
    exact classifyGameCount_some _ _ hcl

/-- Witness for C6: on a concrete verified presentation the outcome equals the
marker search over the sentinel-redacted received bytes. -/
theorem C6_sentinel_redaction_witness :
    sampleResult.ownsGame
      = containsBytes (redactList sampleT1.recvData sampleT1.recvAuthed 88)
          markerTrue :=
  (C6_sentinel_redaction (strBytes "Q") [] (fun _ => true) 440 sampleOut1
    sampleT1 sampleResult).2.2 rfl (by decide)

/-- A successful recovery-id search only ever returns id 0 or id 1. -/
theorem find_recovery_id_ok_id {K S : Type} [DecidableEq K] (P : K256Provider K S)
    (pk messageHash : List Nat) (sig : S) (i : Nat)
    (h : find_recovery_id P pk messageHash sig = .ok i) : i = 0 ∨ i = 1 := by
  cases hp : P.parseKey pk with
  | none => simp [find_recovery_id, hp] at h
  | some vk =>
    rw [find_recovery_id_spec P pk messageHash sig vk hp] at h
    by_cases h0 : P.recoverFromPrehash messageHash sig 0 = some vk
    · simp [h0] at h; omega
    · by_cases h1 : P.recoverFromPrehash messageHash sig 1 = some vk
      · simp [h0, h1] at h; omega
      · simp [h0, h1] at h

/-- Lossy UTF-8 decoding is the identity on pure-ASCII byte sequences. -/
theorem utf8LossyGo_ascii :
    ∀ (fuel : Nat) (xs : List Nat), xs.length ≤ fuel →
      (∀ b ∈ xs, b < 128) → utf8LossyGo fuel xs = xs := by
  intro fuel
  induction fuel with
  | zero =>
    intro xs hlen _
    cases xs with
    | nil => rfl
    | cons b rest => simp at hlen
  | succ f ih =>
    intro xs hlen hascii
    cases xs with
    | nil => rfl
    | cons b rest =>
      have hb : b < 128 := hascii b (by simp)
      have hrest : utf8LossyGo f rest = rest :=
        ih rest (by simpa using Nat.le_of_succ_le_succ hlen)
          (fun x hx => hascii x (List.mem_cons_of_mem b hx))
      simp [utf8LossyGo, hb, hrest]

/-- Lossy UTF-8 decoding is the identity on pure-ASCII byte sequences. -/
theorem utf8LossyBytes_ascii (xs : List Nat) (h : ∀ b ∈ xs, b < 128) :
    utf8LossyBytes xs = xs :=
  utf8LossyGo_ascii xs.length xs (Nat.le_refl _) h

/-- Rust policy vector: a well-formed 3-byte sequence (U+20AC) is copied. -/
example : utf8LossyBytes [226, 130, 172] = [226, 130, 172] := by decide

/-- Rust policy vector: `F0 28 8C 28` decodes as U+FFFD `(` U+FFFD `(`
(substitution of maximal subparts). -/
example : utf8LossyBytes [240, 40, 140, 40]
    = [239, 191, 189, 40, 239, 191, 189, 40] := by decide

/-- Rust policy vector: a surrogate encoding `ED A0 80` becomes three
replacement characters. -/
example : utf8LossyBytes [237, 160, 128] = repChar ++ repChar ++ repChar := by
  decide

/-- Rust policy vector: a truncated final sequence becomes one replacement
character. -/
example : utf8LossyBytes [65, 226, 130] = 65 :: repChar := by decide

/-- C8 counterexample: the selection does not reveal the raw first-occurrence
range on every plaintext byte sequence.  With one invalid byte `0x80` before
the pattern, the code finds `"appid":440` at offset 3 of the lossy-decoded
string (the invalid byte became the 3-byte U+FFFD) and reveals `[3, 14)`,
while the raw plaintext's first occurrence is at offset 1 with range
`[1, 12)`; offset 3 of the raw bytes carries no match, and the revealed range
even extends past the 12-byte transcript. -/
theorem C8_lossy_offset_counterexample :
    buildRecvReveal (128 :: strBytes "\"appid\":440") 440 = .ok (3, 14) ∧
    findSub (appIdPattern 440) (128 :: strBytes "\"appid\":440") = some 1 ∧
    matchesAt (128 :: strBytes "\"appid\":440") (appIdPattern 440) 3 = false ∧
    (128 :: strBytes "\"appid\":440").length = 12 := by
  exact ⟨by decide, by decide, by decide, by decide⟩

/-- C8 as amended: the fine-granularity selection reveals on the received
side exactly the half-open range `[s, s + pattern_length)` of the first
occurrence of the fact pattern `"appid":<app_id>` in the UTF-8-lossy decoding
of the received plaintext, with that decoded-string byte offset used directly
as a raw-transcript offset; on pure-ASCII plaintext the decoding is the
identity, so the revealed range is then the raw first-occurrence range; when
the pattern is absent it fails with the pattern-not-found error instead of
producing a presentation. -/
theorem C8_fine_disclosure (recvData : List Nat) (appId s e : Nat) :
    (buildRecvReveal recvData appId = .ok (s, e) →
      matchesAt (utf8LossyBytes recvData) (appIdPattern appId) s = true ∧
      (∀ j, j < s →
        matchesAt (utf8LossyBytes recvData) (appIdPattern appId) j = false) ∧
      e = s + (appIdPattern appId).length) ∧
    ((∀ j, matchesAt (utf8LossyBytes recvData) (appIdPattern appId) j = false) →
      buildRecvReveal recvData appId = .error .PatternNotFound) ∧
    ((∀ b ∈ recvData, b < 128) → utf8LossyBytes recvData = recvData) := by
  refine ⟨?_, ?_, utf8LossyBytes_ascii recvData⟩
  · intro h
    unfold buildRecvReveal at h
    cases hf : findSub (appIdPattern appId) (utf8LossyBytes recvData) with
    | none => rw [hf] at h; exact absurd h (by simp)
    | some s' =>
      rw [hf] at h
      obtain ⟨hm, hmin⟩ := findSub_some _ _ _ hf
      have hpair := Except.ok.inj h
      have hss : s' = s := congrArg Prod.fst hpair
      subst hss
      exact ⟨hm, hmin, (congrArg Prod.snd hpair).symm⟩
  · intro hno
    unfold buildRecvReveal
    cases hf : findSub (appIdPattern appId) (utf8LossyBytes recvData) with
    | none => rfl
    | some s' =>
      have hm := (findSub_some _ _ _ hf).1
      rw [hno s'] at hm
      exact absurd hm (by simp)

/-- Witness for C8 (amended): on an all-ASCII plaintext the decoding is the
identity, `"appid":440` first occurs at offset 1, and the revealed end offset
is start plus pattern length. -/
theorem C8_fine_disclosure_witness :
    matchesAt (utf8LossyBytes (strBytes "x\"appid\":440y")) (appIdPattern 440) 1
      = true ∧
    12 = 1 + (appIdPattern 440).length ∧
    utf8LossyBytes (strBytes "x\"appid\":440y") = strBytes "x\"appid\":440y" :=
  ⟨((C8_fine_disclosure (strBytes "x\"appid\":440y") 440 1 12).1 (by decide)).1,
   ((C8_fine_disclosure (strBytes "x\"appid\":440y") 440 1 12).1 (by decide)).2.2,
   (C8_fine_disclosure (strBytes "x\"appid\":440y") 440 1 12).2.2 (by decide)⟩

/-- C3: the recovery-id search tries exactly the two candidate ids 0 and 1, in
order, attempting public-key recovery from the signature and the hash the
export stage actually passes — the SHA-256 of the serialized attestation
header, not the chain's native Keccak-256 — returning the id whose recovered
key equals the known notary key (with v = id + 27, so v is 27 or 28), and
failing with the recovery-id-not-found error when neither candidate's
recovered key matches. -/
theorem C3_recovery_id_search {K S : Type} [DecidableEq K] (P : K256Provider K S)
    (pk messageHash : List Nat) (sig : S) (vk : K) (i : Nat)
    (chronoOk : Nat → Bool) (vkData : List Nat)
    (out : ExportPresentationOutput) (proof : SolidityProof)
    (hp : P.parseKey pk = some vk) :
    (find_recovery_id P pk messageHash sig = .ok 0 ↔
      P.recoverFromPrehash messageHash sig 0 = some vk) ∧
    (find_recovery_id P pk messageHash sig = .ok 1 ↔
      (¬ P.recoverFromPrehash messageHash sig 0 = some vk ∧
        P.recoverFromPrehash messageHash sig 1 = some vk)) ∧
    (¬ P.recoverFromPrehash messageHash sig 0 = some vk →
      ¬ P.recoverFromPrehash messageHash sig 1 = some vk →
      find_recovery_id P pk messageHash sig = .error .RecoveryIdNotFound) ∧
    (find_recovery_id P pk messageHash sig = .ok i →
      (i = 0 ∨ i = 1) ∧ (i + 27 = 27 ∨ i + 27 = 28)) ∧
    (exportMain P chronoOk vkData (.ok out) = .ok proof →
      ∃ s, P.parseSig out.attestation.sigData = some s ∧
        ∃ j, find_recovery_id P vkData
            (sha256Bytes out.attestation.headerBytes) s = .ok j ∧
          proof.signatureV = j + 27) := by
  rw [find_recovery_id_spec P pk messageHash sig vk hp]
  refine ⟨?_, ?_, ?_, ?_, ?_⟩
  · by_cases h0 : P.recoverFromPrehash messageHash sig 0 = some vk
    · simp [h0]
    · by_cases h1 : P.recoverFromPrehash messageHash sig 1 = some vk <;>
        simp [h0, h1]
  · by_cases h0 : P.recoverFromPrehash messageHash sig 0 = some vk
    · simp [h0]
    · by_cases h1 : P.recoverFromPrehash messageHash sig 1 = some vk <;>
        simp [h0, h1]
  · intro h0 h1; simp [h0, h1]
  · intro h
    by_cases h0 : P.recoverFromPrehash messageHash sig 0 = some vk
    · simp [h0] at h; omega
    · by_cases h1 : P.recoverFromPrehash messageHash sig 1 = some vk
      · simp [h0, h1] at h; omega
      · simp [h0, h1] at h
  · intro h
    obtain ⟨sn, t, owns, s, addr, rid, -, -, -, -, -, hps, -, hfr, hproof⟩ :=
      exportMain_ok_characterization P chronoOk vkData out proof h
    exact ⟨s, hps, rid, hfr, by rw [hproof]⟩

/-- Witness for C3: under a collaborator for which id 0 recovers a different
key and id 1 recovers the known key, the search returns id 1. -/
theorem C3_recovery_id_search_witness :
    find_recovery_id sampleProvider1 [0] [1] () = .ok 1 :=
  ((C3_recovery_id_search sampleProvider1 [0] [1] () 5 1 (fun _ => true) []
      dummyExportOut dummyProof rfl).2.1).mpr ⟨by decide, by decide⟩

/-- C4: the emitted message hash equals the hash actually used in the
recovery-id search — the SHA-256 of the BCS-serialized attestation header —
and not the chain-native Keccak-256 of that header (whenever the two digests
differ), and it is emitted alongside r, s, v, the notary address, and the
verified claim's metadata. -/
theorem C4_message_hash_convention {K S : Type} [DecidableEq K]
    (P : K256Provider K S) (chronoOk : Nat → Bool) (vkData : List Nat)
    (out : ExportPresentationOutput) (proof : SolidityProof)
    (h : exportMain P chronoOk vkData (.ok out) = .ok proof) :
    proof.messageHash = sha256Bytes out.attestation.headerBytes ∧
    (¬ sha256Bytes out.attestation.headerBytes
        = keccak256Bytes out.attestation.headerBytes →
      ¬ proof.messageHash = keccak256Bytes out.attestation.headerBytes) ∧
    (∃ sig rid, P.parseSig out.attestation.sigData = some sig ∧
      find_recovery_id P vkData proof.messageHash sig = .ok rid ∧
      proof.signatureV = rid + 27 ∧
      (proof.signatureV = 27 ∨ proof.signatureV = 28)) ∧
    proof.signatureR = out.attestation.sigData.take 32 ∧
    proof.signatureS = out.attestation.sigData.drop 32 ∧
    (∃ addr, pubkey_to_address P vkData = .ok addr ∧
      proof.notaryAddress = addr) ∧
    (∃ sn, out.serverName = some sn ∧ proof.serverName = sn) ∧
    proof.timestamp = out.time ∧
    (∃ t, out.transcript = some t ∧
      classifyGameCount (redactList t.recvData t.recvAuthed 88)
        = some proof.ownsGame ∧
      proof.transcriptHash
        = sha256Bytes (redactList t.recvData t.recvAuthed 88)) := by
  obtain ⟨sn, t, owns, sig, addr, rid, hs, hca, ht, hcl, hlen, hps, hpa, hfr, hproof⟩ :=
    exportMain_ok_characterization P chronoOk vkData out proof h
  subst hproof
  have hv : rid = 0 ∨ rid = 1 := find_recovery_id_ok_id P vkData _ sig rid hfr
  refine ⟨rfl, fun hne => hne, ⟨sig, rid, hps, hfr, rfl, ?_⟩, rfl, rfl,
    ⟨addr, hpa, rfl⟩, ⟨sn, hs, rfl⟩, rfl, ⟨t, ht, hcl, rfl⟩⟩
  show rid + 27 = 27 ∨ rid + 27 = 28
  omega

/-- Witness for C4: on a concrete export run the emitted message hash is the
SHA-256 of the header bytes, which differs from their Keccak-256. -/
theorem C4_message_hash_convention_witness :
    sampleExportProof.messageHash
      = sha256Bytes sampleExportOut.attestation.headerBytes ∧
    ¬ sampleExportProof.messageHash
      = keccak256Bytes sampleExportOut.attestation.headerBytes :=
  ⟨(C4_message_hash_convention sampleProvider (fun _ => true) [2]
      sampleExportOut sampleExportProof (by decide)).1,
   (C4_message_hash_convention sampleProvider (fun _ => true) [2]
      sampleExportOut sampleExportProof (by decide)).2.1 (by decide)⟩

/-- C9: the export stage performs no server-identity check: whatever server
name a cryptographically verified presentation carries is emitted into the
proof object unchanged, and replacing the name by any other (including one
that is not `api.steampowered.com`) leaves the run successful with only the
emitted name changed. -/
theorem C9_export_no_server_check {K S : Type} [DecidableEq K]
    (P : K256Provider K S) (chronoOk : Nat → Bool) (vkData : List Nat)
    (out : ExportPresentationOutput) (sn sn' : String) (proof : SolidityProof)
    (h : exportMain P chronoOk vkData
        (.ok { out with serverName := some sn }) = .ok proof) :
    proof.serverName = sn ∧
    exportMain P chronoOk vkData (.ok { out with serverName := some sn' })
      = .ok { proof with serverName := sn' } := by
  obtain ⟨sn0, t, owns, sig, addr, rid, hs, hca, ht, hcl, hlen, hps, hpa, hfr, hproof⟩ :=
    exportMain_ok_characterization P chronoOk vkData _ proof h
  have hsn0 : sn0 = sn := by
    have : some sn = some sn0 := hs
    exact (Option.some.inj this).symm
  subst hsn0
  subst hproof
  exact ⟨rfl, exportMain_ok_build P chronoOk vkData
    { out with serverName := some sn' } sn' t owns sig addr rid rfl hca ht hcl
    hlen hps hpa hfr⟩

/-- Witness for C9: a concrete export run carrying a non-Steam server name
succeeds and emits that name. -/
theorem C9_export_no_server_check_witness :
    exportMain sampleProvider (fun _ => true) [2]
      (.ok { sampleExportOut with serverName := some "not-steam.example" })
      = .ok { sampleExportProof with serverName := "not-steam.example" } :=
  (C9_export_no_server_check sampleProvider (fun _ => true) [2] sampleExportOut
    "evil.example.com" "not-steam.example" sampleExportProof (by decide)).2

end Gefion
